import Mathlib

/-!
Verification development for the earlyprint/jupyterbook tutorial scripts.

The repository consists of six Python scripts:
  1666_texts/get_texts.py, _build/jupyter_execute/metadata.py,
  _build/jupyter_execute/word2vec.py, _build/jupyter_execute/ep_xml.py,
  _build/jupyter_execute/tf_idf.py, _build/jupyter_execute/similarity.py.

Below, each piece of Python that the claims touch is shallowly embedded:
XML elements become a record type, loops become structural recursion with
explicit accumulator state, and Python exceptions (AttributeError raised by
calling a method on None) become an Except value.
-/

/-- An lxml XML element, as the scripts use it: a tag name, an association
list of attributes, and an optional text content (Python "el.text" is a
string or None). -/
structure Element where
  tag : String
  attrs : List (String × String)
  text : Option String
deriving DecidableEq

/-- Python "el.get(key)": look the attribute up, returning None when absent. -/
def Element.get (e : Element) (k : String) : Option String :=
  List.lookup k e.attrs

/-- The one Python exception kind these scripts can raise on the embedded
paths: AttributeError, from calling a method (.text, .get, .lower) on None. -/
inductive PyErr where
  | attributeError
deriving DecidableEq

/-- Python ".lower()" called on a value that is a string or None: on None it
raises AttributeError, on a string it lowercases. -/
def pyLower : Option String → Except PyErr String
  | none => Except.error PyErr.attributeError
  | some s => Except.ok s.toLower

/-! ## ep_xml.py, In[14]: the sentence segmentation loop

    for tag in w_and_pc[:500]:
        if "unit" in tag.attrib and tag.get("unit") == "sentence":
            if tag.text != None:
                new_sentence.append(tag.text)
            all_sentences.append(new_sentence)
            new_sentence = []
        else:
            new_sentence.append(tag.text)
-/

/-- The boundary test of ep_xml.py line 255: "unit" in tag.attrib and
tag.get("unit") == "sentence".  The membership conjunct is subsumed by the
lookup returning a value. -/
def unitSentence (t : Element) : Bool :=
  match t.get "unit" with
  | some v => v == "sentence"
  | none => false

/-- The texts contributed by a boundary tag itself: ep_xml.py appends
tag.text to the sentence being closed only when it is not None. -/
def endTexts (t : Element) : List (Option String) :=
  match t.text with
  | some x => [some x]
  | none => []

/-- The ep_xml.py segmentation loop, with the two mutated Python variables
(all_sentences, new_sentence) carried as explicit accumulators.  Sentences
are lists of Option String because the else branch appends tag.text even
when it is None. -/
def epLoop : List Element → List (List (Option String)) → List (Option String) →
    List (List (Option String)) × List (Option String)
  | [], all, cur => (all, cur)
  | t :: ts, all, cur =>
    if unitSentence t then
      epLoop ts (all ++ [cur ++ endTexts t]) []
    else
      epLoop ts all (cur ++ [t.text])

/-- Running the ep_xml.py loop from the initial state all_sentences = [],
new_sentence = [].  The script then uses only the first component; the
in-progress second component is discarded. -/
def epSegment (tags : List Element) : List (List (Option String)) × List (Option String) :=
  epLoop tags [] []

/-- The boundary test as claim C4 words it: a sentence ends exactly at a
pc element whose unit attribute equals "sentence".  (The source code never
inspects the tag name.) -/
def pcUnitSentence (t : Element) : Bool :=
  t.tag == "pc" && unitSentence t

/-- The segmentation loop that claim C4 describes: identical to epLoop
except that only pc elements can end a sentence. -/
def epLoopSpecC4 : List Element → List (List (Option String)) → List (Option String) →
    List (List (Option String)) × List (Option String)
  | [], all, cur => (all, cur)
  | t :: ts, all, cur =>
    if pcUnitSentence t then
      epLoopSpecC4 ts (all ++ [cur ++ endTexts t]) []
    else
      epLoopSpecC4 ts all (cur ++ [t.text])

/-- Claim C4's segmentation from the empty initial state. -/
def epSegmentSpecC4 (tags : List Element) :
    List (List (Option String)) × List (Option String) :=
  epLoopSpecC4 tags [] []

/-- An independent, structurally recursive description of what the ep_xml.py
loop computes: split the element sequence at every element whose unit
attribute equals "sentence" (whatever its tag name); each closed sentence is
the texts of the elements before the boundary followed by the boundary text
when it is not None; elements after the last boundary form the trailing
in-progress remainder. -/
def sentencesAmended : List Element → List (List (Option String)) × List (Option String)
  | [] => ([], [])
  | t :: ts =>
    let r := sentencesAmended ts
    if unitSentence t then
      (endTexts t :: r.1, r.2)
    else
      match r.1 with
      | s :: ss => ((t.text :: s) :: ss, r.2)
      | [] => ([], t.text :: r.2)

/-! ## word2vec.py, In[2]: get_sentences

    def get_sentences(filename):
        ...
        new_sentence = []
        for word in xml.iter("w"):
            previous = word.getprevious()
            if previous != None and previous.get("unit", previous) == "sentence":
                all_sentences.append(new_sentence)
                new_sentence = []
            new_sentence.append(word.get("lemma", word.text).lower())

all_sentences is a module-level global, assigned at In[3] and mutated by
every call; new_sentence is local to the call.
-/

/-- The value of Python "previous.get(key, previous)": the attribute value (a
string) when present, otherwise the default, which here is the element
itself. -/
inductive StrOrElem where
  | str (s : String)
  | elem (e : Element)
deriving DecidableEq

/-- Python "e.get(k, e)": attribute lookup whose default is the element
itself. -/
def getWithSelfDefault (e : Element) (k : String) : StrOrElem :=
  match e.get k with
  | some v => StrOrElem.str v
  | none => StrOrElem.elem e

/-- Python "==" between the looked-up value and a string literal: strings
compare by content; an lxml element defines no equality with str, so the
comparison falls back to identity and is False. -/
def pyEqString : StrOrElem → String → Bool
  | StrOrElem.str v, s => v == s
  | StrOrElem.elem _, _ => false

/-- The boundary test of word2vec.py line 44 on a previous sibling:
previous.get("unit", previous) == "sentence". -/
def w2vBoundaryTest (e : Element) : Bool :=
  pyEqString (getWithSelfDefault e "unit") "sentence"

/-- The boundary test as claim C10 words it: previous.get("unit") ==
"sentence", i.e. the unit attribute is present and equals "sentence". -/
def w2vBoundaryTestSpecC10 (e : Element) : Bool :=
  e.get "unit" == some "sentence"

/-- A w element as get_sentences sees it: the element together with the
result of word.getprevious(), which is None for a first sibling. -/
structure WNode where
  prev : Option Element
  elem : Element
deriving DecidableEq

/-- The full test of word2vec.py line 44: previous != None and
previous.get("unit", previous) == "sentence". -/
def wBoundary : Option Element → Bool
  | none => false
  | some e => w2vBoundaryTest e

/-- Python "word.get(key, word.text)": the attribute value when present,
otherwise the text, which may be None. -/
def attrOrText (w : Element) (k : String) : Option String :=
  match w.get k with
  | some v => some v
  | none => w.text

/-- The get_sentences loop body over all w elements, with the mutated
variables carried explicitly: all is the module global all_sentences, cur is
the local new_sentence.  word.get("lemma", word.text).lower() raises
AttributeError when the lemma attribute is absent and the text is None. -/
def getSentencesLoop : List WNode → List (List String) → List String →
    Except PyErr (List (List String) × List String)
  | [], all, cur => Except.ok (all, cur)
  | w :: rest, all, cur =>
    let st := if wBoundary w.prev then (all ++ [cur], ([] : List String)) else (all, cur)
    match pyLower (attrOrText w.elem "lemma") with
    | Except.ok token => getSentencesLoop rest st.1 (st.2 ++ [token])
    | Except.error e => Except.error e

/-- A call to get_sentences on one file: it receives the current value of
the module global all_sentences, starts a fresh local new_sentence, and its
only externally visible result is the new value of the global; the final
in-progress local sentence is discarded with the call frame. -/
def get_sentences (ws : List WNode) (all_sentences : List (List String)) :
    Except PyErr (List (List String)) :=
  (getSentencesLoop ws all_sentences []).map (fun st => st.1)

/-! ## tf_idf.py In[2] and similarity.py In[3]: tokenization

    words = [word.get("reg", word.text).lower() for word in word_tags if word.text != None]

similarity.py is identical with "lemma" in place of "reg".
-/

/-- The tokenizing list comprehension of tf_idf.py line 78 and similarity.py
line 69, for a given attribute key: elements whose text is None are filtered
out; each kept element contributes word.get(key, word.text).lower(), which
would raise AttributeError were .lower() ever applied to None. -/
def tokensOf (k : String) : List Element → Except PyErr (List String)
  | [] => Except.ok []
  | w :: ws =>
    if w.text ≠ none then
      match pyLower (attrOrText w k) with
      | Except.ok t =>
        match tokensOf k ws with
        | Except.ok ts => Except.ok (t :: ts)
        | Except.error e => Except.error e
      | Except.error e => Except.error e
    else
      tokensOf k ws

/-- tf_idf.py tokenization: regularized forms. -/
def tfIdfTokens : List Element → Except PyErr (List String) :=
  tokensOf "reg"

/-- similarity.py tokenization: lemmas. -/
def similarityTokens : List Element → Except PyErr (List String) :=
  tokensOf "lemma"

/-- The total description of the same comprehension: keep elements with
non-None text, take the attribute value or else the text, lowercase. -/
def tokensPure (k : String) (tags : List Element) : List String :=
  (tags.filter fun w => w.text ≠ none).map fun w => ((attrOrText w k).getD "").toLower

/-! ## tf_idf.py In[3] and similarity.py: per-text term counts

    all_counted = [Counter(a) for a in all_tokenized]
    df = pd.DataFrame(all_counted, index=...).fillna(0)
-/

/-- collections.Counter on a token list, looked up at a term: the number of
occurrences of the term in the list. -/
def counterOf (a : List String) (t : String) : Nat :=
  a.count t

/-- One cell of the pandas DataFrame built from the list of Counters: a term
that is a key of this row's Counter (i.e. occurs in this text's token list)
gets its count; a term absent from this text but present in another (a NaN
cell) is filled with 0 by fillna(0). -/
def dfEntry (a : List String) (t : String) : Nat :=
  if t ∈ a then counterOf a t else 0

/-! ## metadata.py In[4] and similarity.py In[59]: the metadata aggregation loop

    for f in files:
        tcp_id = f.split("/")[-1].split("_")[0]
        metadata = etree.parse(f, parser)
        title = metadata.find(".//tei:sourceDesc//tei:title", ...).text
        try:
            author = metadata.find(".//tei:sourceDesc//tei:author", ...).text
        except AttributeError:
            author = None
        try:
            date = metadata.find(".//tei:sourceDesc//tei:date", ...).get("when")
        except AttributeError:
            date = None
        all_data.append({"title": title, "author": author, "date": date})
        index.append(tcp_id)

The title lookup is not guarded: find returns None when the element is
missing, and None.text raises AttributeError, killing the script.
-/

/-- The three find() results one metadata file can yield: the first matching
title, author and date elements, each None when the document has none. -/
structure MetaFile where
  titleElem : Option Element
  authorElem : Option Element
  dateElem : Option Element
deriving DecidableEq

/-- One row of the aggregated DataFrame: title, author, date, each possibly
None. -/
structure Row where
  title : Option String
  author : Option String
  date : Option String
deriving DecidableEq

/-- The body of the metadata aggregation loop for one file.  The title
lookup metadata.find(...).text is unguarded: a missing title element makes
.text raise an uncaught AttributeError.  The author and date lookups are
wrapped in try/except AttributeError that substitutes None. -/
def processFile (m : MetaFile) : Except PyErr Row :=
  match m.titleElem with
  | none => Except.error PyErr.attributeError
  | some te =>
    let author := match m.authorElem with
      | some ae => ae.text
      | none => none
    let date := match m.dateElem with
      | some de => de.get "when"
      | none => none
    Except.ok { title := te.text, author := author, date := date }

/-- The whole aggregation loop: one row appended per file, in order; an
uncaught exception aborts the run. -/
def metadataLoop : List MetaFile → Except PyErr (List Row)
  | [] => Except.ok []
  | m :: ms =>
    match processFile m with
    | Except.ok r =>
      match metadataLoop ms with
      | Except.ok rs => Except.ok (r :: rs)
      | Except.error e => Except.error e
    | Except.error e => Except.error e

/-- The row produced for a file on the non-raising path: each field is the
element text (or when-attribute) when the element exists, None otherwise. -/
def rowOfGood (m : MetaFile) : Row :=
  { title := m.titleElem.bind (fun te => te.text)
  , author := m.authorElem.bind (fun ae => ae.text)
  , date := m.dateElem.bind (fun de => de.get "when") }

/-! ## Repository-level enumerations

The remaining claims are about program syntax and effects rather than about
a single function value: which operations the try/except blocks guard, which
external interactions each script performs, which variables get_sentences
mutates, and which files each script parses.  These are embedded as data
read off the source, one entry per occurrence, with the source location in
the comment.
-/

/-- The kind of operation a try body performs. -/
inductive GuardedOp where
  | xmlAttrLookup
  | subprocessCall
deriving DecidableEq

/-- What the except handler does. -/
inductive HandlerAction where
  | substituteNone
  | ignorePass
deriving DecidableEq

/-- One try/except block. -/
structure TryExceptBlock where
  file : String
  op : GuardedOp
  handler : HandlerAction
deriving DecidableEq

/-- Every try/except block in the repository:
  get_texts.py lines 16-19: try: subprocess.call(command, shell=True)
    except: pass;
  metadata.py lines 113-116 (author) and 119-122 (date) in the DataFrame
    loop, lines 198-201 (date) in the edgelist loop;
  similarity.py lines 158-161 (author) and 164-167 (date). -/
def repoTryExcepts : List TryExceptBlock :=
  [ { file := "1666_texts/get_texts.py", op := GuardedOp.subprocessCall,
      handler := HandlerAction.ignorePass }
  , { file := "metadata.py author df-loop", op := GuardedOp.xmlAttrLookup,
      handler := HandlerAction.substituteNone }
  , { file := "metadata.py date df-loop", op := GuardedOp.xmlAttrLookup,
      handler := HandlerAction.substituteNone }
  , { file := "metadata.py date edgelist-loop", op := GuardedOp.xmlAttrLookup,
      handler := HandlerAction.substituteNone }
  , { file := "similarity.py author", op := GuardedOp.xmlAttrLookup,
      handler := HandlerAction.substituteNone }
  , { file := "similarity.py date", op := GuardedOp.xmlAttrLookup,
      handler := HandlerAction.substituteNone } ]

/-- An externally visible interaction of a script. -/
inductive Effect where
  | globRead (pattern : String)
  | plainRead (path : String)
  | csvWrite (path : String)
  | pngWrite (path : String)
  | htmlWrite (path : String)
  | networkGet (url : String)
  | subprocessRun (cmd : String)
deriving DecidableEq

/-- get_texts.py: open("texts.csv") at line 5; subprocess.call of a cp
command at line 17, once per text id. -/
def getTextsEffects : List Effect :=
  [ Effect.plainRead "texts.csv"
  , Effect.subprocessRun "cp /home/data/phase1texts/texts/.../:id.xml ." ]

/-- metadata.py: requests.get at line 52; glob at line 103 (files read by
etree.parse in both loops); open("name_abbrev.json") at line 162; pyvis
g.show("subgraph.html") at line 300 writes an HTML file. -/
def metadataEffects : List Effect :=
  [ Effect.networkGet "https://raw.githubusercontent.com/earlyprint/epmetadata/master/header/A53049_header.xml"
  , Effect.globRead "../../epmetadata/header/*.xml"
  , Effect.plainRead "name_abbrev.json"
  , Effect.htmlWrite "subgraph.html" ]

/-- ep_xml.py: etree.parse of a fixed path at line 57; to_csv at line 355. -/
def epXmlEffects : List Effect :=
  [ Effect.plainRead "A50919.xml"
  , Effect.csvWrite "pl_noun_counts_by_book.csv" ]

/-- tf_idf.py: glob at line 60, files read by etree.parse. -/
def tfIdfEffects : List Effect :=
  [ Effect.globRead "1666_texts/*.xml" ]

/-- similarity.py: globs at lines 35 and 146, files read by etree.parse. -/
def similarityEffects : List Effect :=
  [ Effect.globRead "1666_texts/*.xml"
  , Effect.globRead "../../epmetadata/header/*.xml" ]

/-- word2vec.py: glob at line 54, files read by etree.parse. -/
def word2vecEffects : List Effect :=
  [ Effect.globRead "1666_texts_full/*.xml" ]

/-- All externally visible interactions of all six scripts. -/
def allScriptEffects : List Effect :=
  getTextsEffects ++ metadataEffects ++ epXmlEffects ++ tfIdfEffects ++
    similarityEffects ++ word2vecEffects

/-- The effect kinds claim C2 allows: glob-directed reads and CSV or PNG
writes. -/
def claimC2Allowed : Effect → Bool
  | Effect.globRead _ => true
  | Effect.csvWrite _ => true
  | Effect.pngWrite _ => true
  | _ => false

/-- Is the effect a network request? -/
def isNetworkGet : Effect → Bool
  | Effect.networkGet _ => true
  | _ => false

/-- Is the effect a subprocess invocation? -/
def isSubprocess : Effect → Bool
  | Effect.subprocessRun _ => true
  | _ => false

/-- The scope a Python assignment or method call mutates. -/
inductive VarScope where
  | functionLocal
  | moduleGlobal
deriving DecidableEq

/-- One mutation site. -/
structure MutationSite where
  target : String
  scope : VarScope
deriving DecidableEq

/-- The mutation sites inside the body of get_sentences (word2vec.py lines
36-47): new_sentence is assigned and .append-ed, and is local to the call;
all_sentences.append at line 45 mutates the module-level global assigned at
In[3], which is shared by every call in the run. -/
def getSentencesMutations : List MutationSite :=
  [ { target := "new_sentence", scope := VarScope.functionLocal }
  , { target := "all_sentences", scope := VarScope.moduleGlobal } ]

/-! ## File parse events per run -/

/-- metadata.py parses every file of the glob list twice: once in the
DataFrame loop (line 109) and once again in the edgelist loop (line 192). -/
def metadataParseEvents (files : List String) : List String :=
  files ++ files

/-- tf_idf.py parses each globbed file once (line 68). -/
def tfIdfParseEvents (files : List String) : List String :=
  files

/-- word2vec.py parses each globbed file once (line 57 calling line 38). -/
def word2vecParseEvents (files : List String) : List String :=
  files

/-- ep_xml.py parses its single input file once (line 57). -/
def epXmlParseEvents : List String :=
  ["A50919.xml"]

/-- similarity.py parses each text file once (line 59) and each metadata
file once (line 154); the two glob patterns name disjoint directories. -/
def similarityParseEvents (filenames metadataFiles : List String) : List String :=
  filenames ++ metadataFiles

/-- Is the effect a file read (glob-directed or by direct path)? -/
def isFileRead : Effect → Bool
  | Effect.globRead _ => true
  | Effect.plainRead _ => true
  | _ => false

/-- Is the effect an HTML write? -/
def isHtmlWrite : Effect → Bool
  | Effect.htmlWrite _ => true
  | _ => false

/-- The effects of every script other than metadata.py. -/
def nonMetadataEffects : List Effect :=
  getTextsEffects ++ epXmlEffects ++ tfIdfEffects ++ similarityEffects ++ word2vecEffects

/-- The effects of every script other than get_texts.py. -/
def nonGetTextsEffects : List Effect :=
  metadataEffects ++ epXmlEffects ++ tfIdfEffects ++ similarityEffects ++ word2vecEffects

/-! ## Helper lemmas -/

/-- Running the ep_xml.py loop from any accumulator state: the sentences of
the remaining input are appended to the master list, with the current
in-progress sentence merged into the first one, and whatever follows the
last boundary is left in the in-progress slot. -/
theorem epLoop_spec (ts : List Element) : ∀ all cur, epLoop ts all cur =
    match sentencesAmended ts with
    | (s :: ss, tr) => (all ++ (cur ++ s) :: ss, tr)
    | ([], tr) => (all, cur ++ tr) := by
  induction ts with
  | nil => intro all cur; simp [epLoop, sentencesAmended]
  | cons t ts ih =>
    intro all cur
    cases h : unitSentence t with
    | true =>
      simp only [epLoop, sentencesAmended, h, if_true]
      rw [ih]
      rcases hts : sentencesAmended ts with ⟨s1, tr⟩
      cases s1 with
      | nil => simp
      | cons s ss => simp
    | false =>
      simp only [epLoop, sentencesAmended, h, Bool.false_eq_true, if_false]
      rw [ih]
      rcases hts : sentencesAmended ts with ⟨s1, tr⟩
      cases s1 with
      | nil => simp
      | cons s ss => simp

/-- Splitting an ep_xml.py loop run at a list append. -/
theorem epLoop_append (xs ys : List Element) : ∀ all cur,
    epLoop (xs ++ ys) all cur = epLoop ys (epLoop xs all cur).1 (epLoop xs all cur).2 := by
  induction xs with
  | nil => intro all cur; simp [epLoop]
  | cons t ts ih =>
    intro all cur
    cases h : unitSentence t with
    | true => simp only [List.cons_append, epLoop, h, if_true]; exact ih _ _
    | false => simp only [List.cons_append, epLoop, h, Bool.false_eq_true, if_false]; exact ih _ _

/-- A stretch of input containing no boundary marker never touches the
master sentence list. -/
theorem epLoop_no_boundary (ys : List Element) : ∀ all cur,
    (∀ t ∈ ys, unitSentence t = false) → (epLoop ys all cur).1 = all := by
  induction ys with
  | nil => intro all cur _; simp [epLoop]
  | cons t ts ih =>
    intro all cur h
    have ht : unitSentence t = false := h t (by simp)
    simp only [epLoop, ht, Bool.false_eq_true, if_false]
    exact ih all (cur ++ [t.text]) (fun u hu => h u (by simp [hu]))

/-- Splitting a get_sentences run at a list append: when the first half runs
to an intermediate state, the second half continues from it. -/
theorem getSentencesLoop_append_ok (xs ys : List WNode) : ∀ all cur st,
    getSentencesLoop xs all cur = Except.ok st →
    getSentencesLoop (xs ++ ys) all cur = getSentencesLoop ys st.1 st.2 := by
  induction xs with
  | nil =>
    intro all cur st hok
    simp [getSentencesLoop] at hok
    simp [List.nil_append, ← hok]
  | cons w ws ih =>
    intro all cur st hok
    cases hp : pyLower (attrOrText w.elem "lemma") with
    | ok token =>
      simp only [getSentencesLoop, List.cons_append, hp] at hok ⊢
      exact ih _ _ _ hok
    | error e =>
      simp only [getSentencesLoop, List.cons_append, hp] at hok
      cases hok

/-- When the first half of a run raises, so does the whole run. -/
theorem getSentencesLoop_append_error (xs ys : List WNode) : ∀ all cur e,
    getSentencesLoop xs all cur = Except.error e →
    getSentencesLoop (xs ++ ys) all cur = Except.error e := by
  induction xs with
  | nil => intro all cur e hok; simp [getSentencesLoop] at hok
  | cons w ws ih =>
    intro all cur e hok
    cases hp : pyLower (attrOrText w.elem "lemma") with
    | ok token =>
      simp only [getSentencesLoop, List.cons_append, hp] at hok ⊢
      exact ih _ _ _ hok
    | error e2 =>
      simp only [getSentencesLoop, List.cons_append, hp] at hok ⊢
      try exact hok

/-- Words none of which follow a sentence boundary never touch the global
all_sentences: a successful run over them leaves the first state component
unchanged. -/
theorem getSentencesLoop_no_boundary (ys : List WNode) : ∀ all cur st,
    (∀ w ∈ ys, wBoundary w.prev = false) →
    getSentencesLoop ys all cur = Except.ok st → st.1 = all := by
  induction ys with
  | nil =>
    intro all cur st _ hok
    simp [getSentencesLoop] at hok
    simp [← hok]
  | cons w ws ih =>
    intro all cur st h hok
    have hw : wBoundary w.prev = false := h w (by simp)
    simp only [getSentencesLoop, hw, Bool.false_eq_true, if_false] at hok
    cases hp : pyLower (attrOrText w.elem "lemma") with
    | ok token =>
      rw [hp] at hok
      exact ih all (cur ++ [token]) st (fun u hu => h u (by simp [hu])) hok
    | error e => rw [hp] at hok; cases hok

/-- A successful get_sentences run only ever appends to the global
all_sentences it was handed. -/
theorem getSentencesLoop_extends (ws : List WNode) : ∀ all cur st,
    getSentencesLoop ws all cur = Except.ok st → ∃ t, st.1 = all ++ t := by
  induction ws with
  | nil =>
    intro all cur st hok
    simp [getSentencesLoop] at hok
    exact ⟨[], by simp [← hok]⟩
  | cons w rest ih =>
    intro all cur st hok
    simp only [getSentencesLoop] at hok
    cases hp : pyLower (attrOrText w.elem "lemma") with
    | ok token =>
      rw [hp] at hok
      cases hb : wBoundary w.prev with
      | true =>
        simp only [hb, if_true] at hok
        rcases ih _ _ _ hok with ⟨t, ht⟩
        exact ⟨[cur] ++ t, by simp [ht]⟩
      | false =>
        simp only [hb, Bool.false_eq_true, if_false] at hok
        exact ih _ _ _ hok
    | error e => rw [hp] at hok; cases hok

/-- The tokenizing comprehension never raises: the guard word.text != None
ensures word.get(key, word.text) is never None, so .lower() always receives
a string; the result is exactly the filtered-and-mapped token list. -/
theorem tokensOf_eq_pure (k : String) (tags : List Element) :
    tokensOf k tags = Except.ok (tokensPure k tags) := by
  induction tags with
  | nil => simp [tokensOf, tokensPure]
  | cons w ws ih =>
    by_cases h : w.text = none
    · simp [tokensOf, tokensPure, h, ih]
    · have hao : ∃ s, attrOrText w k = some s := by
        unfold attrOrText
        cases hg : w.get k with
        | some v => exact ⟨v, rfl⟩
        | none =>
          cases ht : w.text with
          | some s => exact ⟨s, rfl⟩
          | none => exact absurd ht h
      rcases hao with ⟨s, hs⟩
      simp [tokensOf, tokensPure, h, ih, hs, pyLower]

/-- The metadata loop on files that all have a title element: it succeeds
and produces exactly one row per file, each field None-substituted when the
element is missing. -/
theorem metadataLoop_allGood (files : List MetaFile) :
    (∀ m ∈ files, m.titleElem.isSome) →
    metadataLoop files = Except.ok (files.map rowOfGood) := by
  induction files with
  | nil => intro _; simp [metadataLoop]
  | cons m ms ih =>
    intro h
    have hm : m.titleElem.isSome := h m (by simp)
    rcases ht : m.titleElem with _ | te
    · rw [ht] at hm; cases hm
    · simp only [metadataLoop, processFile, ht, List.map_cons]
      rw [ih (fun u hu => h u (by simp [hu]))]
      simp [rowOfGood, ht]
      constructor
      · cases ha : m.authorElem <;> simp
      · cases hd : m.dateElem <;> simp

/-! ## Claims -/

/-- C1, counterexample: the try/except block of 1666_texts/get_texts.py
lines 16-19 guards a subprocess invocation, not a missing-attribute lookup
on an XML element. -/
theorem C1_counterexample :
    ({ file := "1666_texts/get_texts.py", op := GuardedOp.subprocessCall,
       handler := HandlerAction.ignorePass } : TryExceptBlock) ∈ repoTryExcepts ∧
    GuardedOp.subprocessCall ≠ GuardedOp.xmlAttrLookup := by
  decide

/-- C1, amended: every try/except block in the repository either guards a
missing-attribute lookup on an XML element and silently substitutes None, or
is the one block in 1666_texts/get_texts.py, which guards a subprocess
invocation with a bare except that silently ignores all errors. -/
theorem C1_theorem (b : TryExceptBlock) (h : b ∈ repoTryExcepts) :
    (b.op = GuardedOp.xmlAttrLookup ∧ b.handler = HandlerAction.substituteNone) ∨
    (b.file = "1666_texts/get_texts.py" ∧ b.op = GuardedOp.subprocessCall ∧
      b.handler = HandlerAction.ignorePass) := by
  fin_cases h <;> simp

/-- C1, witness: the theorem applied to the author try/except of
metadata.py. -/
theorem C1_witness :
    (({ file := "metadata.py author df-loop", op := GuardedOp.xmlAttrLookup,
        handler := HandlerAction.substituteNone } : TryExceptBlock).op =
          GuardedOp.xmlAttrLookup ∧
     ({ file := "metadata.py author df-loop", op := GuardedOp.xmlAttrLookup,
        handler := HandlerAction.substituteNone } : TryExceptBlock).handler =
          HandlerAction.substituteNone) ∨
    (({ file := "metadata.py author df-loop", op := GuardedOp.xmlAttrLookup,
        handler := HandlerAction.substituteNone } : TryExceptBlock).file =
          "1666_texts/get_texts.py" ∧
     ({ file := "metadata.py author df-loop", op := GuardedOp.xmlAttrLookup,
        handler := HandlerAction.substituteNone } : TryExceptBlock).op =
          GuardedOp.subprocessCall ∧
     ({ file := "metadata.py author df-loop", op := GuardedOp.xmlAttrLookup,
        handler := HandlerAction.substituteNone } : TryExceptBlock).handler =
          HandlerAction.ignorePass) :=
  C1_theorem _ (by decide)

/-- C2, counterexample: metadata.py performs a network request (requests.get
on the raw.githubusercontent.com metadata URL, line 52), which is neither a
glob-directed read nor a CSV or PNG write. -/
theorem C2_counterexample :
    Effect.networkGet
        "https://raw.githubusercontent.com/earlyprint/epmetadata/master/header/A53049_header.xml"
      ∈ allScriptEffects ∧
    claimC2Allowed (Effect.networkGet
        "https://raw.githubusercontent.com/earlyprint/epmetadata/master/header/A53049_header.xml")
      = false := by
  decide

/-- C2, amended: every externally visible effect of every script is a file
read (glob-directed or by direct path), a CSV write, a PNG write, an HTTP
GET, an HTML write, or a subprocess invocation; network requests and the
HTML write occur only in metadata.py, and subprocess invocations occur only
in get_texts.py. -/
theorem C2_theorem :
    (∀ e ∈ allScriptEffects,
      claimC2Allowed e = true ∨ isFileRead e = true ∨ isNetworkGet e = true ∨
        isHtmlWrite e = true ∨ isSubprocess e = true) ∧
    (∀ e ∈ nonMetadataEffects, isNetworkGet e = false ∧ isHtmlWrite e = false) ∧
    (∀ e ∈ nonGetTextsEffects, isSubprocess e = false) := by
  refine ⟨?_, ?_, ?_⟩ <;> (intro e he; fin_cases he <;> simp [claimC2Allowed,
    isFileRead, isNetworkGet, isHtmlWrite, isSubprocess])

/-- C2, witness: the theorem applied to the glob read of tf_idf.py. -/
theorem C2_witness :
    claimC2Allowed (Effect.globRead "1666_texts/*.xml") = true ∨
    isFileRead (Effect.globRead "1666_texts/*.xml") = true ∨
    isNetworkGet (Effect.globRead "1666_texts/*.xml") = true ∨
    isHtmlWrite (Effect.globRead "1666_texts/*.xml") = true ∨
    isSubprocess (Effect.globRead "1666_texts/*.xml") = true :=
  C2_theorem.1 _ (by decide)

/-- C3, counterexample: the call all_sentences.append(new_sentence) inside
get_sentences (word2vec.py line 45) mutates the module-level global
all_sentences, not a variable local to the executing scope of the call. -/
theorem C3_counterexample :
    ({ target := "all_sentences", scope := VarScope.moduleGlobal } : MutationSite)
      ∈ getSentencesMutations ∧
    VarScope.moduleGlobal ≠ VarScope.functionLocal := by
  decide

/-- C3, amended: every mutation performed by get_sentences either targets a
variable local to the call or targets the module-level global all_sentences;
semantically, a successful call only ever appends to the global it was
handed, so the shared state accumulates across the files of a single run and
nothing persists beyond the run. -/
theorem C3_theorem :
    (∀ m ∈ getSentencesMutations,
      m.scope = VarScope.functionLocal ∨ m.target = "all_sentences") ∧
    (∀ (ws : List WNode) (prev res : List (List String)),
      get_sentences ws prev = Except.ok res → ∃ t, res = prev ++ t) := by
  constructor
  · decide
  · intro ws prev res hok
    unfold get_sentences at hok
    cases hl : getSentencesLoop ws prev [] with
    | ok st =>
      rw [hl] at hok
      simp [Except.map] at hok
      rcases getSentencesLoop_extends ws prev [] st hl with ⟨t, ht⟩
      exact ⟨t, by rw [← hok, ht]⟩
    | error e => rw [hl] at hok; cases hok

/-- C3, witness: the theorem applied to the local mutation site and to a
concrete empty run. -/
theorem C3_witness :
    (({ target := "new_sentence", scope := VarScope.functionLocal } : MutationSite).scope
        = VarScope.functionLocal ∨
     ({ target := "new_sentence", scope := VarScope.functionLocal } : MutationSite).target
        = "all_sentences") ∧
    ∃ t, ([["flame"]] : List (List String)) = [["flame"]] ++ t :=
  ⟨C3_theorem.1 _ (by decide), C3_theorem.2 [] [["flame"]] [["flame"]] (by rfl)⟩

/-- C4, counterexample: on a w element carrying unit="sentence", the ep_xml
loop ends a sentence (the boundary test never inspects the tag name),
whereas the claimed pc-only segmentation does not. -/
theorem C4_counterexample :
    epSegment [{ tag := "w", attrs := [("unit", "sentence")], text := some "." }] ≠
      epSegmentSpecC4 [{ tag := "w", attrs := [("unit", "sentence")], text := some "." }] ∧
    epSegment [{ tag := "w", attrs := [("unit", "sentence")], text := some "." }] =
      ([[some "."]], []) := by
  decide

/-- C4, amended: for every sequence of w and pc elements in document order,
the segmentation accumulates element texts into the current sentence and
ends a sentence exactly at an element, of either tag, whose unit attribute
equals "sentence", including that boundary marker text in the ended sentence
whenever it is non-None, then starting a fresh empty sentence; tokens after
the last boundary stay in the in-progress remainder. -/
theorem C4_theorem (tags : List Element) : epSegment tags = sentencesAmended tags := by
  unfold epSegment
  rw [epLoop_spec]
  rcases h : sentencesAmended tags with ⟨s1, tr⟩
  cases s1 with
  | nil => simp
  | cons s ss => simp

/-- C5, counterexample: a metadata file with no title element makes the
unguarded lookup metadata.find(...).text raise an uncaught AttributeError:
the run aborts and no row is appended, instead of None being substituted. -/
theorem C5_counterexample :
    metadataLoop [{ titleElem := none,
                    authorElem := some { tag := "author", attrs := [], text := some "R. Boyle" },
                    dateElem := some { tag := "date", attrs := [("when", "1666")], text := some "1666" } }] =
      Except.error PyErr.attributeError := by
  rfl

/-- C5, amended: in the metadata aggregation loop, for every file whose
title element is present, a missing author or date element (or a missing
when attribute) causes None to be silently substituted for that field, and
exactly one row per file is appended; a file with no title element instead
raises an uncaught AttributeError. -/
theorem C5_theorem (files : List MetaFile) (h : ∀ m ∈ files, m.titleElem.isSome) :
    metadataLoop files = Except.ok (files.map rowOfGood) :=
  metadataLoop_allGood files h

/-- C5, witness: the theorem applied to one file that has a title element
but no author and no date. -/
theorem C5_witness :
    metadataLoop [{ titleElem := some { tag := "title", attrs := [], text := some "Observations" },
                    authorElem := none, dateElem := none }] =
      Except.ok [{ title := some "Observations", author := none, date := none }] := by
  have h := C5_theorem
    [{ titleElem := some { tag := "title", attrs := [], text := some "Observations" },
       authorElem := none, dateElem := none }] (by decide)
  simpa [rowOfGood] using h

/-- C6, counterexample: metadata.py parses each metadata file twice, once in
the DataFrame loop and once in the edgelist loop, so a run over a one-file
list loads that file more than once. -/
theorem C6_counterexample :
    ¬ ((metadataParseEvents ["A53049_header.xml"]).count "A53049_header.xml" ≤ 1) := by
  decide

/-- C6, amended: each notebook loads and parses each input file at most
twice per run: metadata.py parses each metadata file exactly twice (the
DataFrame loop and the edgelist loop), and every other notebook parses each
of its input files at most once. -/
theorem C6_theorem (files metadataFiles : List String) (f : String)
    (h1 : files.Nodup) (h2 : (files ++ metadataFiles).Nodup) :
    (metadataParseEvents files).count f ≤ 2 ∧
    (tfIdfParseEvents files).count f ≤ 1 ∧
    (word2vecParseEvents files).count f ≤ 1 ∧
    epXmlParseEvents.count f ≤ 1 ∧
    (similarityParseEvents files metadataFiles).count f ≤ 1 := by
  have hc1 : files.count f ≤ 1 := List.nodup_iff_count_le_one.mp h1 f
  have hcs : (files ++ metadataFiles).count f ≤ 1 := List.nodup_iff_count_le_one.mp h2 f
  refine ⟨?_, hc1, hc1, ?_, hcs⟩
  · unfold metadataParseEvents
    rw [List.count_append]
    omega
  · exact le_trans (List.count_le_length _ _) (by simp [epXmlParseEvents])

/-- C6, witness: the theorem applied to concrete one-file lists. -/
theorem C6_witness :
    (metadataParseEvents ["a.xml"]).count "a.xml" ≤ 2 ∧
    (tfIdfParseEvents ["a.xml"]).count "a.xml" ≤ 1 ∧
    (word2vecParseEvents ["a.xml"]).count "a.xml" ≤ 1 ∧
    epXmlParseEvents.count "a.xml" ≤ 1 ∧
    (similarityParseEvents ["a.xml"] ["b.xml"]).count "a.xml" ≤ 1 :=
  C6_theorem ["a.xml"] ["b.xml"] "a.xml" (by decide) (by decide)

/-- C7: each cell of the per-text term-count table equals exactly the number
of occurrences of the term in that text's token list, which is what the
library Counter returns on the same input; a term absent from the list gets
the fillna value 0, which is that same count. -/
theorem C7_theorem (a : List String) (t : String) : dfEntry a t = counterOf a t := by
  unfold dfEntry
  by_cases h : t ∈ a
  · simp [h]
  · simp [h, counterOf, List.count_eq_zero.mpr h]

/-- C8: tokens after the last sentence boundary are silently dropped.  For
the ep_xml.py loop, appending boundary-free input never changes the master
sentence list; for get_sentences, a successful run over input extended by
boundary-free words returns the same global all_sentences, because the final
in-progress sentence is discarded, never appended. -/
theorem C8_theorem :
    (∀ (xs ys : List Element) (all : List (List (Option String))) (cur : List (Option String)),
      (∀ t ∈ ys, unitSentence t = false) →
      (epLoop (xs ++ ys) all cur).1 = (epLoop xs all cur).1) ∧
    (∀ (xs ys : List WNode) (prev res : List (List String)),
      (∀ w ∈ ys, wBoundary w.prev = false) →
      get_sentences (xs ++ ys) prev = Except.ok res →
      get_sentences xs prev = Except.ok res) := by
  constructor
  · intro xs ys all cur h
    rw [epLoop_append]
    exact epLoop_no_boundary ys _ _ h
  · intro xs ys prev res h hok
    unfold get_sentences at hok ⊢
    cases hx : getSentencesLoop xs prev [] with
    | ok st =>
      rw [getSentencesLoop_append_ok xs ys prev [] st hx] at hok
      cases hy : getSentencesLoop ys st.1 st.2 with
      | ok st2 =>
        rw [hy] at hok
        simp [Except.map] at hok ⊢
        rw [← getSentencesLoop_no_boundary ys st.1 st.2 st2 h hy]
        exact hok
      | error e => rw [hy] at hok; simp [Except.map] at hok
    | error e =>
      rw [getSentencesLoop_append_error xs ys prev [] e hx] at hok
      simp [Except.map] at hok

/-- C8, witness: the theorem applied to concrete boundary-free suffixes. -/
theorem C8_witness :
    (epLoop ([] ++ [{ tag := "w", attrs := [], text := some "of" }]) [] []).1 =
      (epLoop [] [] []).1 ∧
    get_sentences [] [] = Except.ok [] :=
  ⟨C8_theorem.1 [] [{ tag := "w", attrs := [], text := some "of" }] [] [] (by decide),
   C8_theorem.2 []
     [{ prev := none, elem := { tag := "w", attrs := [("lemma", "of")], text := some "of" } }]
     [] [] (by decide) (by rfl)⟩

/-- C9: in the tokenization loops of tf_idf.py and similarity.py, every w
element whose text is None is filtered out, whatever attributes it carries,
so .lower() is never applied to None: on every input the comprehension
returns the filtered, attribute-or-text, lowercased token list and never
raises. -/
theorem C9_theorem (tags : List Element) :
    tfIdfTokens tags = Except.ok (tokensPure "reg" tags) ∧
    similarityTokens tags = Except.ok (tokensPure "lemma" tags) :=
  ⟨tokensOf_eq_pure "reg" tags, tokensOf_eq_pure "lemma" tags⟩

/-- C10: the boundary test previous.get("unit", previous) == "sentence" of
get_sentences equals previous.get("unit") == "sentence" on every element:
when the unit attribute is absent the default is the element itself, and an
lxml element never compares equal to a string. -/
theorem C10_theorem (e : Element) : w2vBoundaryTest e = w2vBoundaryTestSpecC10 e := by
  unfold w2vBoundaryTest w2vBoundaryTestSpecC10 getWithSelfDefault
  cases h : e.get "unit" with
  | some v => simp [pyEqString]
  | none => simp [pyEqString]
